import Mathlib

/-!
Verification of the voxel-world core of the Gamev2 repository: the sparse
voxel map, the face-culling mesher (VoxelWorld.findFaces / loadChunk in the
unnamed source file), terrain elevation (getElevation / generateWorld in
render.ts), the spatial index contract, and the chunk streamer
(deleteIfOutRadius / addInRadius / chunkRenderLoop in render.ts).

Numbers: JavaScript numbers are modelled as exact rationals (ℚ) where the
source computes ratios, and as ℤ/ℕ where the source only ever holds
integers.  Float rounding of IEEE doubles is out of scope.
-/

namespace Gamev2

/-- Integer voxel coordinate triple, the XYZ type of the source. -/
structure XYZ where
  x : ℤ
  y : ℤ
  z : ℤ
deriving DecidableEq

/-- Modelled from the spec: the CoordinateMap3D (SparseVoxelMap) source file
voxel-block.ts is absent from src.  Per spec 4.1 it is a sparse mapping from
integer (x,y,z) to a tile id, whose get returns an explicit absent sentinel,
modelled as Option. -/
def CoordinateMap3D : Type := ℤ → ℤ → ℤ → Option ℤ

/-- Modelled from the spec: SparseVoxelMap.set inserts or overwrites. -/
def CoordinateMap3D.set (m : CoordinateMap3D) (x y z v : ℤ) : CoordinateMap3D :=
  fun a b c => if a = x ∧ b = y ∧ c = z then some v else m a b c

/-- Modelled from the spec: SparseVoxelMap.get, point lookup. -/
def CoordinateMap3D.get (m : CoordinateMap3D) (x y z : ℤ) : Option ℤ :=
  m x y z

/-- Modelled from the spec: a freshly constructed CoordinateMap3D is empty. -/
def CoordinateMap3D.empty : CoordinateMap3D :=
  fun _ _ _ => none

/-- One corner of a face descriptor: local position offset and UV offset. -/
structure Corner where
  pos : ℤ × ℤ × ℤ
  uv : ℤ × ℤ
deriving DecidableEq

/-- One entry of the static face table: direction vector, the 4 corners, and
the texture-atlas row of that face type. -/
structure Face where
  uvRow : ℤ
  dir : ℤ × ℤ × ℤ
  corners : List Corner
deriving DecidableEq

/-- Modelled from the spec: the static face-descriptor table (faces in
voxel-block.ts, absent from src).  Per the spec data model it holds, for each
of the 6 directions, the direction vector, the 4 corner offsets in a fixed
winding order, and the UV row; the concrete entries follow the standard
left/right/bottom/top/back/front unit-cube table. -/
def faces : List Face :=
  [ { uvRow := 0, dir := (-1, 0, 0),
      corners := [ ⟨(0, 1, 0), (0, 1)⟩, ⟨(0, 0, 0), (0, 0)⟩,
                   ⟨(0, 1, 1), (1, 1)⟩, ⟨(0, 0, 1), (1, 0)⟩ ] },
    { uvRow := 0, dir := (1, 0, 0),
      corners := [ ⟨(1, 1, 1), (0, 1)⟩, ⟨(1, 0, 1), (0, 0)⟩,
                   ⟨(1, 1, 0), (1, 1)⟩, ⟨(1, 0, 0), (1, 0)⟩ ] },
    { uvRow := 1, dir := (0, -1, 0),
      corners := [ ⟨(1, 0, 1), (1, 0)⟩, ⟨(0, 0, 1), (0, 0)⟩,
                   ⟨(1, 0, 0), (1, 1)⟩, ⟨(0, 0, 0), (0, 1)⟩ ] },
    { uvRow := 2, dir := (0, 1, 0),
      corners := [ ⟨(0, 1, 1), (1, 1)⟩, ⟨(1, 1, 1), (0, 1)⟩,
                   ⟨(0, 1, 0), (1, 0)⟩, ⟨(1, 1, 0), (0, 0)⟩ ] },
    { uvRow := 0, dir := (0, 0, -1),
      corners := [ ⟨(1, 0, 0), (0, 0)⟩, ⟨(0, 0, 0), (1, 0)⟩,
                   ⟨(1, 1, 0), (0, 1)⟩, ⟨(0, 1, 0), (1, 1)⟩ ] },
    { uvRow := 0, dir := (0, 0, 1),
      corners := [ ⟨(0, 0, 1), (0, 0)⟩, ⟨(1, 0, 1), (1, 0)⟩,
                   ⟨(0, 1, 1), (0, 1)⟩, ⟨(1, 1, 1), (1, 1)⟩ ] } ]

/-- The four parallel mesh output buffers of loadChunk. -/
structure Buffers where
  positions : List ℤ
  normals : List ℤ
  uvs : List ℚ
  indices : List ℕ
deriving DecidableEq

/-- The per-corner position pushes of findFaces: for each corner, push
p.pos[0]+pos.x, p.pos[1]+pos.y, p.pos[2]+pos.z. -/
def cornersPositions (pos : XYZ) : List Corner → List ℤ
  | [] => []
  | c :: cs =>
      (c.pos.1 + pos.x) :: (c.pos.2.1 + pos.y) :: (c.pos.2.2 + pos.z) ::
        cornersPositions pos cs

/-- The per-corner normal pushes of findFaces: the direction vector once per
corner. -/
def cornersNormals (dir : ℤ × ℤ × ℤ) : List Corner → List ℤ
  | [] => []
  | _ :: cs => dir.1 :: dir.2.1 :: dir.2.2 :: cornersNormals dir cs

/-- The per-corner UV pushes of findFaces:
(uvVoxel + p.uv[0]) * tileWidthRatio and
1 - (uvRow + 1 - p.uv[1]) * tileHeightRatio. -/
def cornersUVs (tile uvRow : ℤ) (tw th : ℚ) : List Corner → List ℚ
  | [] => []
  | c :: cs =>
      ((tile : ℚ) + (c.uv.1 : ℚ)) * tw ::
        (1 - ((uvRow : ℚ) + 1 - (c.uv.2 : ℚ)) * th) ::
        cornersUVs tile uvRow tw th cs

/-- The VoxelWorld state: chunk size, the two UV ratios set by the
constructor, and the sparse voxel map. -/
@[ext]
structure VoxelWorld where
  CHUNK_SIZE : ℕ
  tileWidthRatio : ℚ
  tileHeightRatio : ℚ
  voxelFaceMap : CoordinateMap3D

/-- Constructor options of VoxelWorld (chunkSize and the uv block). -/
structure VoxelConstructorOpts where
  chunkSize : ℕ
  uvSize : ℚ
  uvImageWidth : ℚ
  uvImageHeight : ℚ

/-- The VoxelWorld constructor: stores the chunk size, a fresh empty
CoordinateMap3D, and the two ratios o.uv.size / o.uv.imageWidth and
o.uv.size / o.uv.imageHeight.  (Scene/light/texture-filter setup is
rendering-collaborator glue with no effect on the core state.) -/
def mkVoxelWorld (o : VoxelConstructorOpts) : VoxelWorld :=
  { CHUNK_SIZE := o.chunkSize
    tileWidthRatio := o.uvSize / o.uvImageWidth
    tileHeightRatio := o.uvSize / o.uvImageHeight
    voxelFaceMap := CoordinateMap3D.empty }

/-- The neighbor lookup of findFaces for one face direction, as a Bool:
true when the SparseVoxelMap has no voxel at pos + dir. -/
def VoxelWorld.neighborAbsent (w : VoxelWorld) (pos : XYZ) (f : Face) : Bool :=
  (w.voxelFaceMap.get (pos.x + f.dir.1) (pos.y + f.dir.2.1) (pos.z + f.dir.2.2)).isNone

/-- The body of the face loop of VoxelWorld.findFaces for a single face
descriptor: if the neighbor voxel exists the buffers are unchanged; otherwise
one quad is emitted (4 corner vertices, flat normals, the UV formula, and 6
indices over the 4 new vertices starting at ndx = positions.length / 3).
uvVoxel is the map value at pos itself; the source reads it once before the
loop (the map is not mutated during the loop, so per-face reading agrees);
getD 0 totalizes the lookup, which in the source is only ever performed for
positions previously stored in the map. -/
def VoxelWorld.emitFace (w : VoxelWorld) (pos : XYZ) (f : Face) (B : Buffers) :
    Buffers :=
  match w.voxelFaceMap.get (pos.x + f.dir.1) (pos.y + f.dir.2.1) (pos.z + f.dir.2.2) with
  | some _ => B
  | none =>
      let uvVoxel : ℤ := (w.voxelFaceMap.get pos.x pos.y pos.z).getD 0
      let ndx : ℕ := B.positions.length / 3
      { positions := B.positions ++ cornersPositions pos f.corners
        normals := B.normals ++ cornersNormals f.dir f.corners
        uvs := B.uvs ++ cornersUVs uvVoxel f.uvRow w.tileWidthRatio w.tileHeightRatio f.corners
        indices := B.indices ++ [ndx, ndx + 1, ndx + 2, ndx + 2, ndx + 1, ndx + 3] }

/-- VoxelWorld.findFaces: iterate the static face table over one voxel
position, emitting a quad for every direction whose neighbor is absent. -/
def VoxelWorld.findFaces (w : VoxelWorld) (pos : XYZ) (B : Buffers) : Buffers :=
  faces.foldl (fun b f => w.emitFace pos f b) B

/-- The meshing loop of loadChunk: findFaces over every occupied voxel
position collected for the chunk. -/
def VoxelWorld.meshVoxels (w : VoxelWorld) (ps : List XYZ) (B : Buffers) : Buffers :=
  ps.foldl (fun b p => w.findFaces p b) B

/-- Number of exposed faces of one voxel: the face directions whose neighbor
lookup is absent. -/
def VoxelWorld.exposedFaces (w : VoxelWorld) (pos : XYZ) : ℕ :=
  (faces.filter (w.neighborAbsent pos)).length

/-- Total number of exposed faces over a chunk's occupied-voxel list. -/
def VoxelWorld.chunkExposed (w : VoxelWorld) (ps : List XYZ) : ℕ :=
  (ps.map w.exposedFaces).sum

theorem cornersPositions_length (pos : XYZ) :
    ∀ l : List Corner, (cornersPositions pos l).length = 3 * l.length := by
  intro l
  induction l with
  | nil => rfl
  | cons c cs ih => simp [cornersPositions, ih]; ring

theorem cornersNormals_length (dir : ℤ × ℤ × ℤ) :
    ∀ l : List Corner, (cornersNormals dir l).length = 3 * l.length := by
  intro l
  induction l with
  | nil => rfl
  | cons c cs ih => simp [cornersNormals, ih]; ring

theorem cornersUVs_length (tile uvRow : ℤ) (tw th : ℚ) :
    ∀ l : List Corner, (cornersUVs tile uvRow tw th l).length = 2 * l.length := by
  intro l
  induction l with
  | nil => rfl
  | cons c cs ih => simp [cornersUVs, ih]; ring

theorem emitFace_positions_length (w : VoxelWorld) (pos : XYZ) (f : Face) (B : Buffers) :
    (w.emitFace pos f B).positions.length
      = B.positions.length + (if w.neighborAbsent pos f then 3 * f.corners.length else 0) := by
  unfold VoxelWorld.emitFace VoxelWorld.neighborAbsent
  cases h : w.voxelFaceMap.get (pos.x + f.dir.1) (pos.y + f.dir.2.1) (pos.z + f.dir.2.2) with
  | none => simp [h, cornersPositions_length]
  | some v => simp [h]

theorem emitFace_normals_length (w : VoxelWorld) (pos : XYZ) (f : Face) (B : Buffers) :
    (w.emitFace pos f B).normals.length
      = B.normals.length + (if w.neighborAbsent pos f then 3 * f.corners.length else 0) := by
  unfold VoxelWorld.emitFace VoxelWorld.neighborAbsent
  cases h : w.voxelFaceMap.get (pos.x + f.dir.1) (pos.y + f.dir.2.1) (pos.z + f.dir.2.2) with
  | none => simp [h, cornersNormals_length]
  | some v => simp [h]

theorem emitFace_uvs_length (w : VoxelWorld) (pos : XYZ) (f : Face) (B : Buffers) :
    (w.emitFace pos f B).uvs.length
      = B.uvs.length + (if w.neighborAbsent pos f then 2 * f.corners.length else 0) := by
  unfold VoxelWorld.emitFace VoxelWorld.neighborAbsent
  cases h : w.voxelFaceMap.get (pos.x + f.dir.1) (pos.y + f.dir.2.1) (pos.z + f.dir.2.2) with
  | none => simp [h, cornersUVs_length]
  | some v => simp [h]

theorem emitFace_indices_length (w : VoxelWorld) (pos : XYZ) (f : Face) (B : Buffers) :
    (w.emitFace pos f B).indices.length
      = B.indices.length + (if w.neighborAbsent pos f then 6 else 0) := by
  unfold VoxelWorld.emitFace VoxelWorld.neighborAbsent
  cases h : w.voxelFaceMap.get (pos.x + f.dir.1) (pos.y + f.dir.2.1) (pos.z + f.dir.2.2) with
  | none => simp [h]
  | some v => simp [h]

theorem emitFold_lengths (w : VoxelWorld) (pos : XYZ) :
    ∀ (fs : List Face) (B : Buffers), (∀ f ∈ fs, f.corners.length = 4) →
      let R := fs.foldl (fun b f => w.emitFace pos f b) B
      let n := (fs.filter (w.neighborAbsent pos)).length
      R.positions.length = B.positions.length + 12 * n ∧
      R.normals.length = B.normals.length + 12 * n ∧
      R.uvs.length = B.uvs.length + 8 * n ∧
      R.indices.length = B.indices.length + 6 * n := by
  intro fs
  induction fs with
  | nil => intro B h; simp
  | cons f fs ih =>
      intro B h
      have hf : f.corners.length = 4 := h f (by simp)
      have hrest : ∀ g ∈ fs, g.corners.length = 4 := fun g hg => h g (by simp [hg])
      have := ih (w.emitFace pos f B) hrest
      obtain ⟨hp, hn, hu, hi⟩ := this
      simp only [List.foldl_cons, List.filter_cons]
      cases habs : w.neighborAbsent pos f with
      | true =>
          refine ⟨?_, ?_, ?_, ?_⟩ <;>
            simp [hp, hn, hu, hi, emitFace_positions_length, emitFace_normals_length,
              emitFace_uvs_length, emitFace_indices_length, habs, hf] <;> omega
      | false =>
          refine ⟨?_, ?_, ?_, ?_⟩ <;>
            simp [hp, hn, hu, hi, emitFace_positions_length, emitFace_normals_length,
              emitFace_uvs_length, emitFace_indices_length, habs, hf]

theorem faces_corners_four : ∀ f ∈ faces, f.corners.length = 4 := by decide

theorem findFaces_lengths (w : VoxelWorld) (pos : XYZ) (B : Buffers) :
    (w.findFaces pos B).positions.length
        = B.positions.length + 12 * w.exposedFaces pos ∧
      (w.findFaces pos B).normals.length
        = B.normals.length + 12 * w.exposedFaces pos ∧
      (w.findFaces pos B).uvs.length
        = B.uvs.length + 8 * w.exposedFaces pos ∧
      (w.findFaces pos B).indices.length
        = B.indices.length + 6 * w.exposedFaces pos :=
  emitFold_lengths w pos faces B faces_corners_four

theorem meshVoxels_lengths (w : VoxelWorld) :
    ∀ (ps : List XYZ) (B : Buffers),
      (w.meshVoxels ps B).positions.length
          = B.positions.length + 12 * w.chunkExposed ps ∧
        (w.meshVoxels ps B).normals.length
          = B.normals.length + 12 * w.chunkExposed ps ∧
        (w.meshVoxels ps B).uvs.length
          = B.uvs.length + 8 * w.chunkExposed ps ∧
        (w.meshVoxels ps B).indices.length
          = B.indices.length + 6 * w.chunkExposed ps := by
  intro ps
  induction ps with
  | nil => intro B; simp [VoxelWorld.meshVoxels, VoxelWorld.chunkExposed]
  | cons p ps ih =>
      intro B
      obtain ⟨hp, hn, hu, hi⟩ := ih (w.findFaces p B)
      obtain ⟨gp, gn, gu, gi⟩ := findFaces_lengths w p B
      have hm : w.meshVoxels (p :: ps) B = w.meshVoxels ps (w.findFaces p B) := rfl
      have hc : w.chunkExposed (p :: ps) = w.exposedFaces p + w.chunkExposed ps := by
        simp [VoxelWorld.chunkExposed]
      refine ⟨?_, ?_, ?_, ?_⟩ <;> rw [hm, hc] <;> omega

/-- C1: for every occupied-voxel list and every voxel position, per face
direction the mesher emits exactly one quad (12 position floats = 4 vertices,
6 indices = 2 triangles, with 12 normal floats and 8 UV floats) when the
SparseVoxelMap lookup at pos + dir is absent and emits nothing when it is
present; hence over a whole chunk the vertex count grows by exactly
4 × (number of exposed faces), and likewise indices by 6, uvs by 8 and
normals by 12 per exposed face. -/
theorem mesher_quad_iff_neighbor_absent (w : VoxelWorld) (m : List XYZ) (B : Buffers) :
    ((w.meshVoxels m B).positions.length
        = B.positions.length + 3 * (4 * w.chunkExposed m) ∧
      (w.meshVoxels m B).normals.length
        = B.normals.length + 3 * (4 * w.chunkExposed m) ∧
      (w.meshVoxels m B).uvs.length
        = B.uvs.length + 2 * (4 * w.chunkExposed m) ∧
      (w.meshVoxels m B).indices.length
        = B.indices.length + 6 * w.chunkExposed m) ∧
    ∀ f ∈ faces, ∀ (pos : XYZ) (B2 : Buffers),
      (w.emitFace pos f B2).positions.length
          = B2.positions.length + (if w.neighborAbsent pos f then 12 else 0) ∧
        (w.emitFace pos f B2).indices.length
          = B2.indices.length + (if w.neighborAbsent pos f then 6 else 0) := by
  constructor
  · obtain ⟨hp, hn, hu, hi⟩ := meshVoxels_lengths w m B
    refine ⟨?_, ?_, ?_, ?_⟩ <;> omega
  · intro f hf pos B2
    have hc : f.corners.length = 4 := faces_corners_four f hf
    constructor
    · rw [emitFace_positions_length, hc]
    · rw [emitFace_indices_length]

/-- A concrete example world: chunk size 2, both ratios 1, empty map. -/
def wEx : VoxelWorld := ⟨2, 1, 1, CoordinateMap3D.empty⟩

/-- Empty starting buffers. -/
def emptyBuffers : Buffers := ⟨[], [], [], []⟩

/-- The first entry of the face table, for concrete instantiations. -/
def faceLeft : Face :=
  ⟨0, (-1, 0, 0),
    [ ⟨(0, 1, 0), (0, 1)⟩, ⟨(0, 0, 0), (0, 0)⟩,
      ⟨(0, 1, 1), (1, 1)⟩, ⟨(0, 0, 1), (1, 0)⟩ ]⟩

/-- C1 witness: the counting theorem instantiated at the concrete empty-map
world with one voxel at the origin and the first face of the table, the
face-membership hypothesis discharged by computation. -/
theorem mesher_quad_iff_neighbor_absent_witness :
    (wEx.meshVoxels [⟨0, 0, 0⟩] emptyBuffers).positions.length
        = emptyBuffers.positions.length + 3 * (4 * wEx.chunkExposed [⟨0, 0, 0⟩]) ∧
      (wEx.emitFace ⟨0, 0, 0⟩ faceLeft emptyBuffers).indices.length
        = emptyBuffers.indices.length
          + (if wEx.neighborAbsent ⟨0, 0, 0⟩ faceLeft then 6 else 0) := by
  have h := mesher_quad_iff_neighbor_absent wEx [⟨0, 0, 0⟩] emptyBuffers
  exact ⟨h.1.1, (h.2 faceLeft (by decide) ⟨0, 0, 0⟩ emptyBuffers).2⟩

/-- An axis-aligned box: origin plus width/height/depth, the option shape of
the Octree constructor and of inserted items. -/
structure Box where
  x : ℚ
  y : ℚ
  z : ℚ
  width : ℚ
  height : ℚ
  depth : ℚ
deriving DecidableEq

/-- Two boxes intersect when they overlap on every axis. -/
def Box.intersects (a b : Box) : Prop :=
  a.x < b.x + b.width ∧ b.x < a.x + a.width ∧
    a.y < b.y + b.height ∧ b.y < a.y + a.height ∧
    a.z < b.z + b.depth ∧ b.z < a.z + a.depth

instance (a b : Box) : Decidable (a.intersects b) := by
  unfold Box.intersects; infer_instance

/-- Box q covers only space inside box b. -/
def Box.within (q b : Box) : Prop :=
  b.x ≤ q.x ∧ q.x + q.width ≤ b.x + b.width ∧
    b.y ≤ q.y ∧ q.y + q.height ≤ b.y + b.height ∧
    b.z ≤ q.z ∧ q.z + q.depth ≤ b.z + b.depth

instance (q b : Box) : Decidable (q.within b) := by
  unfold Box.within; infer_instance

/-- Modelled from the spec: the Octree of lib/quadrant is absent from src.
Per spec 4.2 it owns a fixed bounding box and the inserted unit-cube items;
the internal split into up to 8 octants is a lookup-acceleration detail with
no effect on the insert/query contract, so items are kept in one list. -/
structure Octree where
  box : Box
  items : List Box
deriving DecidableEq

/-- Modelled from the spec: Octree.insert is a silent no-op when the item
lies fully outside the bounds of the tree, and stores the item otherwise. -/
def Octree.insert (t : Octree) (item : Box) : Octree :=
  if item.intersects t.box then ⟨t.box, t.items ++ [item]⟩ else t

/-- Modelled from the spec: a range query returns all stored items whose box
intersects the query box. -/
def Octree.query (t : Octree) (q : Box) : List Box :=
  t.items.filter fun i => decide (i.intersects q)

/-- VoxelWorld.addBlockToTree: insert the unit cube at an integer voxel
position (width = height = depth = 1) into the chunk's tree. -/
def addBlockToTree (tree : Octree) (pos : XYZ) : Octree :=
  tree.insert ⟨(pos.x : ℚ), (pos.y : ℚ), (pos.z : ℚ), 1, 1, 1⟩

/-- The unit-cube box at an integer voxel position. -/
def unitBoxAt (pos : XYZ) : Box :=
  ⟨(pos.x : ℚ), (pos.y : ℚ), (pos.z : ℚ), 1, 1, 1⟩

theorem insert_box (t : Octree) (i : Box) : (t.insert i).box = t.box := by
  unfold Octree.insert; split <;> rfl

theorem intersects_of_within {i q b : Box} (hq : q.within b) (h : i.intersects q) :
    i.intersects b := by
  obtain ⟨h1, h2, h3, h4, h5, h6⟩ := hq
  obtain ⟨g1, g2, g3, g4, g5, g6⟩ := h
  exact ⟨by linarith, by linarith, by linarith, by linarith, by linarith, by linarith⟩

/-- C8: inserting a unit-cube AABB that lies fully outside the SpatialIndex's
box is a no-op (so it cannot throw and every previously inserted item is left
intact), and the item never appears in any range query whose query box covers
only in-bounds space — in any tree over the same bounds, regardless of later
insertions; the addBlockToTree entry point of the source inherits this for
out-of-bounds voxel positions. -/
theorem octree_out_of_bounds_insert (t : Octree) (i : Box)
    (hw : i.width = 1) (hh : i.height = 1) (hd : i.depth = 1)
    (hout : ¬ i.intersects t.box) :
    t.insert i = t ∧
      (∀ (t2 : Octree) (q : Box), q.within t.box → i ∉ t2.query q) ∧
      ∀ pos : XYZ, ¬ (unitBoxAt pos).intersects t.box → addBlockToTree t pos = t := by
  refine ⟨?_, ?_, ?_⟩
  · unfold Octree.insert
    simp [hout]
  · intro t2 q hq hmem
    have h2 : decide (i.intersects q) = true := (List.mem_filter.mp hmem).2
    exact hout (intersects_of_within hq (of_decide_eq_true h2))
  · intro pos hpos
    unfold addBlockToTree Octree.insert
    have : ¬ (unitBoxAt pos).intersects t.box := hpos
    simp [unitBoxAt] at this
    simp [this]

/-- C8 witness: a concrete tree with box at the origin of size 8 containing
one unit item, and the unit cube at (20,20,20), which lies fully outside;
the insert is a no-op and the cube is absent from an in-bounds full-box
query. -/
theorem octree_out_of_bounds_insert_witness :
    (Octree.insert ⟨⟨0, 0, 0, 8, 8, 8⟩, [⟨2, 2, 2, 1, 1, 1⟩]⟩ ⟨20, 20, 20, 1, 1, 1⟩
        = ⟨⟨0, 0, 0, 8, 8, 8⟩, [⟨2, 2, 2, 1, 1, 1⟩]⟩) ∧
      (⟨20, 20, 20, 1, 1, 1⟩ : Box) ∉
        Octree.query ⟨⟨0, 0, 0, 8, 8, 8⟩, [⟨2, 2, 2, 1, 1, 1⟩]⟩ ⟨0, 0, 0, 8, 8, 8⟩ ∧
      addBlockToTree ⟨⟨0, 0, 0, 8, 8, 8⟩, [⟨2, 2, 2, 1, 1, 1⟩]⟩ ⟨20, 20, 20⟩
        = ⟨⟨0, 0, 0, 8, 8, 8⟩, [⟨2, 2, 2, 1, 1, 1⟩]⟩ := by
  have h := octree_out_of_bounds_insert ⟨⟨0, 0, 0, 8, 8, 8⟩, [⟨2, 2, 2, 1, 1, 1⟩]⟩
    ⟨20, 20, 20, 1, 1, 1⟩ rfl rfl rfl (by norm_num [Box.intersects])
  exact ⟨h.1, h.2.1 _ ⟨0, 0, 0, 8, 8, 8⟩ (by norm_num [Box.within]),
    h.2.2 ⟨20, 20, 20⟩ (by norm_num [unitBoxAt, Box.intersects])⟩

/-- JavaScript Math.round on an exact rational: halves round toward
positive infinity. -/
def jsRound (q : ℚ) : ℤ :=
  ⌊q + 1 / 2⌋

/-- getElevation of render.ts: both arguments are first rounded after
halving, then the noise sample is halved, scaled by 10, rounded, and divided
by 10.  The 2D noise source (createNoise2D of lib/perlin, seed 0) is absent
from src and deterministic per the spec, so it is a function parameter. -/
def getElevation (noise : ℤ → ℤ → ℚ) (x y : ℤ) : ℚ :=
  let xr := jsRound ((x : ℚ) / 2)
  let yr := jsRound ((y : ℚ) / 2)
  ((jsRound (noise xr yr / 2 * 10) : ℚ)) / 10

/-- The elev value computed at the top of VoxelWorld.loadVoxel:
getElevation(o.xc, o.zc) - 5.  (In loadVoxel this value is computed and then
unused: the column filler receives only the base y.)  The seed module's
getElevation is absent from src; it is modelled from the spec by the
render.ts formula. -/
def loadVoxelElev (noise : ℤ → ℤ → ℚ) (xc zc : ℤ) : ℚ :=
  getElevation noise xc zc - 5

/-- The two block materials of generateWorld; blocks.js is absent from src,
so the tile data behind Grass and Stone is opaque and only the tag matters. -/
inductive BlockMat where
  | grass : BlockMat
  | stone : BlockMat
deriving DecidableEq

/-- A placed block of generateWorld: material tag and world position (x and z
are the integer column coordinates; y carries the rounded elevation). -/
structure Block where
  mat : BlockMat
  x : ℤ
  y : ℚ
  z : ℤ
deriving DecidableEq

/-- add_blocks of generateWorld: for a column, one grass block at
elev = getElevation(xc, yc) - 5 and one stone block at elev - 1, both at
(x, z) = (xc, yc). -/
def addBlocksFor (noise : ℤ → ℤ → ℚ) (xc yc : ℤ) : List Block :=
  let elev := getElevation noise xc yc - 5
  [⟨BlockMat.grass, xc, elev, yc⟩, ⟨BlockMat.stone, xc, elev - 1, yc⟩]

/-- The blocks generateWorld places for a given list of columns, in visit
order. -/
def worldBlocksFor (noise : ℤ → ℤ → ℚ) (cols : List (ℤ × ℤ)) : List Block :=
  cols.flatMap fun c => addBlocksFor noise c.1 c.2

/-- The column visit order of generateWorld's two nested downward loops with
CHUNK_SIZE = 2: (xc, yc) pairs. -/
def generateWorldColumns : List (ℤ × ℤ) :=
  [(2, 2), (1, 2), (2, 1), (1, 1)]

/-- generateWorld of render.ts: an Octree with the fixed box
(x 0, y -7, z 0, width 2, height 5, depth 2) receiving each block's unit
cube, and the list of placed blocks. -/
def generateWorld (noise : ℤ → ℤ → ℚ) : Octree × List Block :=
  (worldBlocksFor noise generateWorldColumns).foldl
    (fun s b => (s.1.insert ⟨(b.x : ℚ), b.y, (b.z : ℚ), 1, 1, 1⟩, s.2 ++ [b]))
    (⟨⟨0, -7, 0, 2, 5, 2⟩, []⟩, [])

/-- C3: the y positions generateWorld places for column (xc, zc) are exactly
round((noise(round(xc/2), round(zc/2)) / 2) * 10) / 10 - 5 for the grass
block and one less for the stone block; the elev value of
VoxelWorld.loadVoxel is the same expression; and placement is a pure
function of the column and the noise field, so visiting the columns in any
other order permutes the same per-column blocks. -/
theorem elevation_formula_pure (noise : ℤ → ℤ → ℚ) (xc zc : ℤ)
    (cols1 cols2 : List (ℤ × ℤ)) :
    ((addBlocksFor noise xc zc).map Block.y
        = [(jsRound (noise (jsRound ((xc : ℚ) / 2)) (jsRound ((zc : ℚ) / 2)) / 2 * 10) : ℚ) / 10 - 5,
           (jsRound (noise (jsRound ((xc : ℚ) / 2)) (jsRound ((zc : ℚ) / 2)) / 2 * 10) : ℚ) / 10 - 5 - 1]) ∧
      loadVoxelElev noise xc zc
        = (jsRound (noise (jsRound ((xc : ℚ) / 2)) (jsRound ((zc : ℚ) / 2)) / 2 * 10) : ℚ) / 10 - 5 ∧
      (cols1.Perm cols2 →
        (worldBlocksFor noise cols1).Perm (worldBlocksFor noise cols2)) := by
  refine ⟨?_, ?_, ?_⟩
  · simp [addBlocksFor, getElevation]
  · simp [loadVoxelElev, getElevation]
  · intro h
    exact List.Perm.flatMap_right _ h

/-- C3 witness: the formula and purity statement at the constant-zero noise
field, column (0, 0), and the two-column lists [(0,0),(1,0)] and
[(1,0),(0,0)], whose permutation hypothesis is discharged by a concrete
swap. -/
theorem elevation_formula_pure_witness :
    ((addBlocksFor (fun _ _ => 0) 0 0).map Block.y
        = [(jsRound ((fun (_ _ : ℤ) => (0 : ℚ)) (jsRound ((0 : ℚ) / 2)) (jsRound ((0 : ℚ) / 2)) / 2 * 10) : ℚ) / 10 - 5,
           (jsRound ((fun (_ _ : ℤ) => (0 : ℚ)) (jsRound ((0 : ℚ) / 2)) (jsRound ((0 : ℚ) / 2)) / 2 * 10) : ℚ) / 10 - 5 - 1]) ∧
      (worldBlocksFor (fun _ _ => 0) [(0, 0), (1, 0)]).Perm
        (worldBlocksFor (fun _ _ => 0) [(1, 0), (0, 0)]) := by
  have h := elevation_formula_pure (fun _ _ => 0) 0 0 [(0, 0), (1, 0)] [(1, 0), (0, 0)]
  exact ⟨h.1, h.2.2 (List.Perm.swap ((1 : ℤ), (0 : ℤ)) ((0 : ℤ), (0 : ℤ)) [])⟩

/-- The effective vertical chunk coordinate of loadChunk: the source's
chunkY ||= -1 replaces both an omitted argument and the falsy value 0
with -1. -/
def effectiveChunkY : Option ℤ → ℤ
  | none => -1
  | some c => if c = 0 then -1 else c

/-- The column enumeration of VoxelWorld.loopChunk called as
loopChunk(x, z, f): the outer loop index i gives the second coordinate
z + i, the inner loop index j the first coordinate x + j. -/
def loopChunkCols (n : ℕ) (x z : ℤ) : List (ℤ × ℤ) :=
  (List.range n).flatMap fun i =>
    (List.range n).map fun j => (x + (j : ℤ), z + (i : ℤ))

/-- The generation state threaded through loadChunk's column pass: the
sparse voxel map, the chunk tree, and the blocksToIterate list. -/
def GenState : Type := CoordinateMap3D × Octree × List XYZ

/-- The addBlock callback built by VoxelWorld.loadVoxel for column (xc, zc):
given (uv, yy) it stores uv in the map at (xc, yy, zc), inserts the unit
cube into the tree, and appends the position to the iteration list. -/
def addBlockStep (xc zc : ℤ) (s : GenState) (p : ℤ × ℤ) : GenState :=
  (s.1.set xc p.2 zc p.1, addBlockToTree s.2.1 ⟨xc, p.2, zc⟩,
    s.2.2 ++ [(⟨xc, p.2, zc⟩ : XYZ)])

/-- VoxelWorld.loadVoxel: computes elev (unused by the remainder of the
source function) and runs the column-filling policy over the addBlock
callback.  loadVoxelChunk of chunks/load-chunk.ts is absent from src;
modelled from the spec: the policy, given the base y offset, yields the
(tileId, y) pairs the callback receives, so it is the function parameter
colFill. -/
def loadVoxel (noise : ℤ → ℤ → ℚ) (colFill : ℤ → List (ℤ × ℤ))
    (xc zc y : ℤ) (s : GenState) : GenState :=
  let _elev := getElevation noise xc zc - 5
  (colFill y).foldl (addBlockStep xc zc) s

/-- VoxelWorld.loadChunk: scale the chunk coordinates by CHUNK_SIZE, build
the chunk tree with the chunk-sized box at (x, y, z), fill every column via
loadVoxel, then mesh the collected voxel list with findFaces against the
updated map.  Returns the updated world, the tree, the voxel list, and the
mesh buffers. -/
def VoxelWorld.loadChunk (w : VoxelWorld) (noise : ℤ → ℤ → ℚ)
    (colFill : ℤ → List (ℤ × ℤ)) (chunkX chunkZ : ℤ) (chunkY : Option ℤ) :
    VoxelWorld × Octree × List XYZ × Buffers :=
  let cY := effectiveChunkY chunkY
  let x := chunkX * (w.CHUNK_SIZE : ℤ)
  let y := cY * (w.CHUNK_SIZE : ℤ)
  let z := chunkZ * (w.CHUNK_SIZE : ℤ)
  let tree : Octree :=
    ⟨⟨(x : ℚ), (y : ℚ), (z : ℚ), (w.CHUNK_SIZE : ℚ), (w.CHUNK_SIZE : ℚ), (w.CHUNK_SIZE : ℚ)⟩, []⟩
  let s := (loopChunkCols w.CHUNK_SIZE x z).foldl
    (fun s c => loadVoxel noise colFill c.1 c.2 y s) (w.voxelFaceMap, tree, [])
  let w2 : VoxelWorld :=
    { CHUNK_SIZE := w.CHUNK_SIZE, tileWidthRatio := w.tileWidthRatio,
      tileHeightRatio := w.tileHeightRatio, voxelFaceMap := s.1 }
  (w2, s.2.1, s.2.2, w2.meshVoxels s.2.2 emptyBuffers)

theorem addBlockStep_box (xc zc : ℤ) (s : GenState) (p : ℤ × ℤ) :
    (addBlockStep xc zc s p).2.1.box = s.2.1.box := by
  unfold addBlockStep addBlockToTree
  exact insert_box _ _

theorem foldl_addBlockStep_box (xc zc : ℤ) :
    ∀ (l : List (ℤ × ℤ)) (s : GenState),
      (l.foldl (addBlockStep xc zc) s).2.1.box = s.2.1.box := by
  intro l
  induction l with
  | nil => intro s; rfl
  | cons p l ih =>
      intro s
      rw [List.foldl_cons, ih, addBlockStep_box]

theorem loadVoxel_box (noise : ℤ → ℤ → ℚ) (colFill : ℤ → List (ℤ × ℤ))
    (xc zc y : ℤ) (s : GenState) :
    (loadVoxel noise colFill xc zc y s).2.1.box = s.2.1.box :=
  foldl_addBlockStep_box xc zc (colFill y) s

theorem foldl_loadVoxel_box (noise : ℤ → ℤ → ℚ) (colFill : ℤ → List (ℤ × ℤ)) (y : ℤ) :
    ∀ (cols : List (ℤ × ℤ)) (s : GenState),
      (cols.foldl (fun s c => loadVoxel noise colFill c.1 c.2 y s) s).2.1.box = s.2.1.box := by
  intro cols
  induction cols with
  | nil => intro s; rfl
  | cons c cols ih =>
      intro s
      rw [List.foldl_cons, ih, loadVoxel_box]

theorem loadChunk_tree_box (w : VoxelWorld) (noise : ℤ → ℤ → ℚ)
    (colFill : ℤ → List (ℤ × ℤ)) (chunkX chunkZ : ℤ) (chunkY : Option ℤ) :
    (w.loadChunk noise colFill chunkX chunkZ chunkY).2.1.box
      = ⟨((chunkX * (w.CHUNK_SIZE : ℤ) : ℤ) : ℚ),
          ((effectiveChunkY chunkY * (w.CHUNK_SIZE : ℤ) : ℤ) : ℚ),
          ((chunkZ * (w.CHUNK_SIZE : ℤ) : ℤ) : ℚ),
          (w.CHUNK_SIZE : ℚ), (w.CHUNK_SIZE : ℚ), (w.CHUNK_SIZE : ℚ)⟩ := by
  unfold VoxelWorld.loadChunk
  rw [foldl_loadVoxel_box]

theorem effectiveChunkY_ne_zero : ∀ o : Option ℤ, effectiveChunkY o ≠ 0 := by
  intro o
  cases o with
  | none => simp [effectiveChunkY]
  | some c =>
      simp only [effectiveChunkY]
      split <;> simp_all

/-- C10: when the chunkY argument of loadChunk is omitted or equals 0, the
chunk is computed with effective chunkY = -1: the chunk's SpatialIndex box
starts at y = -CHUNK_SIZE and spans CHUNK_SIZE upward (so the chunk covers
y in [-CHUNK_SIZE, 0)); and for every argument whatsoever the effective
vertical coordinate is nonzero, so with a positive chunk size no caller can
obtain a chunk whose base y is the vertical layer 0. -/
theorem loadChunk_y_anchor (w : VoxelWorld) (noise : ℤ → ℤ → ℚ)
    (colFill : ℤ → List (ℤ × ℤ)) (chunkX chunkZ : ℤ) (chunkY : Option ℤ)
    (h : chunkY = none ∨ chunkY = some 0) :
    effectiveChunkY chunkY = -1 ∧
      (w.loadChunk noise colFill chunkX chunkZ chunkY).2.1.box.y = -(w.CHUNK_SIZE : ℚ) ∧
      (w.loadChunk noise colFill chunkX chunkZ chunkY).2.1.box.height = (w.CHUNK_SIZE : ℚ) ∧
      ∀ o : Option ℤ, 0 < w.CHUNK_SIZE →
        (w.loadChunk noise colFill chunkX chunkZ o).2.1.box.y ≠ 0 := by
  have heff : effectiveChunkY chunkY = -1 := by
    rcases h with h | h <;> simp [h, effectiveChunkY]
  refine ⟨heff, ?_, ?_, ?_⟩
  · rw [loadChunk_tree_box, heff]
    push_cast
    ring
  · rw [loadChunk_tree_box]
  · intro o hn
    rw [loadChunk_tree_box]
    have h1 : effectiveChunkY o ≠ 0 := effectiveChunkY_ne_zero o
    have h2 : (w.CHUNK_SIZE : ℤ) ≠ 0 := by
      exact_mod_cast Nat.pos_iff_ne_zero.mp hn
    have h3 : effectiveChunkY o * (w.CHUNK_SIZE : ℤ) ≠ 0 := mul_ne_zero h1 h2
    show ((effectiveChunkY o * (w.CHUNK_SIZE : ℤ) : ℤ) : ℚ) ≠ 0
    exact_mod_cast h3

/-- C10 witness: the concrete example world (chunk size 2) loaded with the
chunkY argument omitted: the tree box is anchored at y = -2 with height 2,
and a caller passing chunkY = 3 still gets a nonzero base. -/
theorem loadChunk_y_anchor_witness :
    effectiveChunkY none = -1 ∧
      (wEx.loadChunk (fun _ _ => 0) (fun _ => []) 0 0 none).2.1.box.y = -(wEx.CHUNK_SIZE : ℚ) ∧
      (wEx.loadChunk (fun _ _ => 0) (fun _ => []) 0 0 none).2.1.box.height = (wEx.CHUNK_SIZE : ℚ) ∧
      (wEx.loadChunk (fun _ _ => 0) (fun _ => []) 0 0 (some 3)).2.1.box.y ≠ 0 := by
  have h := loadChunk_y_anchor wEx (fun _ _ => 0) (fun _ => []) 0 0 none (Or.inl rfl)
  exact ⟨h.1, h.2.1, h.2.2.1, h.2.2.2 (some 3) (by decide)⟩

/-- C2: for every emitted face vertex the two UV coordinates pushed are
exactly (tileId + cornerU) * tileWidthRatio and
1 - (uvRow + 1 - cornerV) * tileHeightRatio with tileId the stored map value
at the voxel; and the two ratios are computed by the constructor as
atlas tile size divided by atlas image width and height, and loadChunk keeps
them unchanged. -/
theorem uv_formula (o : VoxelConstructorOpts) (w : VoxelWorld) (noise : ℤ → ℤ → ℚ)
    (colFill : ℤ → List (ℤ × ℤ)) (chunkX chunkZ : ℤ) (chunkY : Option ℤ)
    (pos : XYZ) (f : Face) (B : Buffers) (tile : ℤ)
    (htile : w.voxelFaceMap.get pos.x pos.y pos.z = some tile)
    (habs : w.neighborAbsent pos f = true) :
    (mkVoxelWorld o).tileWidthRatio = o.uvSize / o.uvImageWidth ∧
      (mkVoxelWorld o).tileHeightRatio = o.uvSize / o.uvImageHeight ∧
      (w.loadChunk noise colFill chunkX chunkZ chunkY).1.tileWidthRatio = w.tileWidthRatio ∧
      (w.loadChunk noise colFill chunkX chunkZ chunkY).1.tileHeightRatio = w.tileHeightRatio ∧
      (w.emitFace pos f B).uvs
        = B.uvs ++ f.corners.flatMap (fun c =>
            [((tile : ℚ) + (c.uv.1 : ℚ)) * w.tileWidthRatio,
             1 - ((f.uvRow : ℚ) + 1 - (c.uv.2 : ℚ)) * w.tileHeightRatio]) := by
  refine ⟨rfl, rfl, rfl, rfl, ?_⟩
  have hn : w.voxelFaceMap.get (pos.x + f.dir.1) (pos.y + f.dir.2.1) (pos.z + f.dir.2.2) = none := by
    have := habs
    unfold VoxelWorld.neighborAbsent at this
    exact Option.isNone_iff_eq_none.mp this
  unfold VoxelWorld.emitFace
  rw [hn]
  simp only [htile, Option.getD_some]
  congr 1
  induction f.corners with
  | nil => rfl
  | cons c cs ih => simp [cornersUVs, ih]

/-- C2 witness: a world holding tile 5 at the origin, meshing the left face
against an otherwise empty map, with the ratio clauses instantiated at
concrete constructor options (tile size 16 on a 256 x 64 atlas). -/
theorem uv_formula_witness :
    (mkVoxelWorld ⟨2, 16, 256, 64⟩).tileWidthRatio = 16 / 256 ∧
      (mkVoxelWorld ⟨2, 16, 256, 64⟩).tileHeightRatio = 16 / 64 ∧
      ((⟨2, 1, 1, CoordinateMap3D.empty.set 0 0 0 5⟩ : VoxelWorld).loadChunk
          (fun _ _ => 0) (fun _ => []) 0 0 none).1.tileWidthRatio = 1 ∧
      ((⟨2, 1, 1, CoordinateMap3D.empty.set 0 0 0 5⟩ : VoxelWorld).loadChunk
          (fun _ _ => 0) (fun _ => []) 0 0 none).1.tileHeightRatio = 1 ∧
      ((⟨2, 1, 1, CoordinateMap3D.empty.set 0 0 0 5⟩ : VoxelWorld).emitFace
          ⟨0, 0, 0⟩ faceLeft emptyBuffers).uvs
        = emptyBuffers.uvs ++ faceLeft.corners.flatMap (fun c =>
            [((5 : ℚ) + (c.uv.1 : ℚ)) * 1,
             1 - ((faceLeft.uvRow : ℚ) + 1 - (c.uv.2 : ℚ)) * 1]) := by
  have h := uv_formula ⟨2, 16, 256, 64⟩ ⟨2, 1, 1, CoordinateMap3D.empty.set 0 0 0 5⟩
    (fun _ _ => 0) (fun _ => []) 0 0 none ⟨0, 0, 0⟩ faceLeft emptyBuffers 5
    (by decide) (by decide)
  exact h

/-- C4: loadChunk is deterministic: two runs on worlds in equal starting
states — equal chunk size, equal UV ratios, and sparse voxel maps that agree
at every key — with the same noise field, the same column-filling policy and
the same chunk coordinate produce identical voxel sets and identical mesh
buffers: the position, normal, UV and index arrays, the voxel list, the tree
and the resulting maps are all equal. -/
theorem loadChunk_deterministic (w1 w2 : VoxelWorld) (noise : ℤ → ℤ → ℚ)
    (colFill : ℤ → List (ℤ × ℤ)) (chunkX chunkZ : ℤ) (chunkY : Option ℤ)
    (hN : w1.CHUNK_SIZE = w2.CHUNK_SIZE)
    (hw : w1.tileWidthRatio = w2.tileWidthRatio)
    (hh : w1.tileHeightRatio = w2.tileHeightRatio)
    (hm : ∀ x y z : ℤ, w1.voxelFaceMap.get x y z = w2.voxelFaceMap.get x y z) :
    w1.loadChunk noise colFill chunkX chunkZ chunkY
        = w2.loadChunk noise colFill chunkX chunkZ chunkY ∧
      (w1.loadChunk noise colFill chunkX chunkZ chunkY).2.2.2.positions
        = (w2.loadChunk noise colFill chunkX chunkZ chunkY).2.2.2.positions ∧
      (w1.loadChunk noise colFill chunkX chunkZ chunkY).2.2.2.normals
        = (w2.loadChunk noise colFill chunkX chunkZ chunkY).2.2.2.normals ∧
      (w1.loadChunk noise colFill chunkX chunkZ chunkY).2.2.2.uvs
        = (w2.loadChunk noise colFill chunkX chunkZ chunkY).2.2.2.uvs ∧
      (w1.loadChunk noise colFill chunkX chunkZ chunkY).2.2.2.indices
        = (w2.loadChunk noise colFill chunkX chunkZ chunkY).2.2.2.indices ∧
      (w1.loadChunk noise colFill chunkX chunkZ chunkY).2.2.1
        = (w2.loadChunk noise colFill chunkX chunkZ chunkY).2.2.1 ∧
      (w1.loadChunk noise colFill chunkX chunkZ chunkY).2.1
        = (w2.loadChunk noise colFill chunkX chunkZ chunkY).2.1 := by
  have hmap : w1.voxelFaceMap = w2.voxelFaceMap := by
    funext a b c
    exact hm a b c
  have hw12 : w1 = w2 := by
    ext1 <;> simp [hN, hw, hh, hmap]
  subst hw12
  exact ⟨rfl, rfl, rfl, rfl, rfl, rfl, rfl⟩

/-- C4 witness: two worlds whose maps are syntactically different but agree
at every key (the everywhere-empty map and a map with an unreachable branch)
produce identical loadChunk results. -/
theorem loadChunk_deterministic_witness :
    (⟨2, 1, 1, CoordinateMap3D.empty⟩ : VoxelWorld).loadChunk (fun _ _ => 0)
        (fun y => [(0, y)]) 0 0 none
      = (⟨2, 1, 1, fun x _ _ => if x = x + 1 then some 9 else none⟩ : VoxelWorld).loadChunk
          (fun _ _ => 0) (fun y => [(0, y)]) 0 0 none := by
  have h := loadChunk_deterministic ⟨2, 1, 1, CoordinateMap3D.empty⟩
    ⟨2, 1, 1, fun x _ _ => if x = x + 1 then some 9 else none⟩ (fun _ _ => 0)
    (fun y => [(0, y)]) 0 0 none rfl rfl rfl
    (by
      intro x y z
      simp [CoordinateMap3D.empty, CoordinateMap3D.get])
  exact h.1

/-- One chunk-store entry of cam.octrees: the chunk's tree and its mesh
handles (blocks), mesh objects being identified by handles. -/
structure ChunkEntry where
  tree : Octree
  blocks : List ℕ
deriving DecidableEq

/-- The state the streamer of render.ts acts on: the tick counter, the
loaded-chunk store cam.octrees keyed by integer chunk coordinates, the scene
(its mesh handles), the camera position, and the world's sparse voxel map
(held by the voxel world and untouched by the streamer module). -/
structure StreamState where
  counter : ℤ
  octrees : List ((ℤ × ℤ) × ChunkEntry)
  scene : List ℕ
  camX : ℚ
  camZ : ℚ
  voxelFaceMap : CoordinateMap3D

/-- Modelled from the spec: floorMultiple of lib/util is absent from src;
per the spec's streaming contract it floors a position down to a multiple of
the chunk size. -/
def floorMultiple (v m : ℚ) : ℚ :=
  m * ⌊v / m⌋

/-- The viewer coordinate computed by deleteIfOutRadius and addInRadius:
floorMultiple(position, CHUNK_SIZE) / 8 with the literal divisor 8 of the
source. -/
def viewerChunkCoord (chunkSize pos : ℚ) : ℚ :=
  floorMultiple pos chunkSize / 8

/-- The deletion test of deleteIfOutRadius (rq is the already-incremented
radius): the viewer coordinate lies left, right, below or above the chunk's
window. -/
def outOfWindow (x y rq : ℚ) (c : ℤ × ℤ) : Prop :=
  x < (c.1 : ℚ) ∨ x ≥ (c.1 : ℚ) + rq ∨ y < (c.2 : ℚ) ∨ y ≥ (c.2 : ℚ) + rq

instance (x y rq : ℚ) (c : ℤ × ℤ) : Decidable (outOfWindow x y rq c) := by
  unfold outOfWindow; infer_instance

/-- The viewer-in-window condition with the configured (unincremented)
radius r: the half-open square [cx, cx + r + 1) × [cy, cy + r + 1). -/
def inWindow (x y : ℚ) (r : ℤ) (c : ℤ × ℤ) : Prop :=
  (c.1 : ℚ) ≤ x ∧ x < (c.1 : ℚ) + (r : ℚ) + 1 ∧
    (c.2 : ℚ) ≤ y ∧ y < (c.2 : ℚ) + (r : ℚ) + 1

instance (x y : ℚ) (r : ℤ) (c : ℤ × ℤ) : Decidable (inWindow x y r c) := by
  unfold inWindow; infer_instance

/-- scene.remove for every mesh handle of a deleted chunk's blocks list. -/
def sceneRemoveBlocks (scene : List ℕ) (bs : List ℕ) : List ℕ :=
  bs.foldl (fun s b => s.erase b) scene

/-- The entry loop of deleteIfOutRadius: every store entry failing the
window test is dropped and its blocks are removed from the scene; entries
passing it are kept. -/
def deleteGo (x y rq : ℚ) :
    List ((ℤ × ℤ) × ChunkEntry) → List ℕ → List ((ℤ × ℤ) × ChunkEntry) × List ℕ
  | [], scene => ([], scene)
  | e :: rest, scene =>
      if outOfWindow x y rq e.1 then
        deleteGo x y rq rest (sceneRemoveBlocks scene e.2.blocks)
      else
        let p := deleteGo x y rq rest scene
        (e :: p.1, p.2)

/-- deleteIfOutRadius of render.ts: increments r, computes the viewer
coordinate on both axes, and walks the chunk store deleting out-of-window
entries and removing their meshes from the scene. -/
def deleteIfOutRadius (chunkSize : ℚ) (r : ℤ) (st : StreamState) : StreamState :=
  let rq : ℚ := (r : ℚ) + 1
  let x := viewerChunkCoord chunkSize st.camX
  let y := viewerChunkCoord chunkSize st.camZ
  let p := deleteGo x y rq st.octrees st.scene
  { st with octrees := p.1, scene := p.2 }

/-- addInRadius of render.ts: computes the viewer coordinate and iterates
the r x r window, but the loadChunk / store-set call in the loop body is
commented out in the source, so every iteration only performs a lookup and
the state is unchanged. -/
def addInRadius (chunkSize : ℚ) (r : ℤ) (st : StreamState) : StreamState :=
  let _x := viewerChunkCoord chunkSize st.camX
  let _y := viewerChunkCoord chunkSize st.camZ
  ((List.range r.toNat).flatMap fun j =>
    (List.range r.toNat).map fun i => (i, j)).foldl (fun s _ => s) st

/-- The counter reset value of the render loop. -/
def counterOg : ℤ := 50

/-- The body of chunkRenderLoop: post-decrement test of the counter; when it
fires, the counter is reset and the console cleared — the deleteIfOutRadius
and addInRadius calls are commented out in the source, so the store, scene
and map are untouched either way. -/
def chunkRenderLoopTick (_renderDistance : ℤ) (st : StreamState) : StreamState :=
  if st.counter ≤ 0 then
    { st with counter := counterOg }
  else
    { st with counter := st.counter - 1 }

theorem deleteGo_characterization (x y rq : ℚ) :
    ∀ (l : List ((ℤ × ℤ) × ChunkEntry)) (scene : List ℕ),
      (deleteGo x y rq l scene).1
          = l.filter (fun e => decide (¬ outOfWindow x y rq e.1)) ∧
        (deleteGo x y rq l scene).2
          = (l.filter (fun e => decide (outOfWindow x y rq e.1))).foldl
              (fun s e => sceneRemoveBlocks s e.2.blocks) scene := by
  intro l
  induction l with
  | nil => intro scene; exact ⟨rfl, rfl⟩
  | cons e rest ih =>
      intro scene
      by_cases h : outOfWindow x y rq e.1
      · obtain ⟨ha, hb⟩ := ih (sceneRemoveBlocks scene e.2.blocks)
        simp only [deleteGo, if_pos h, List.filter_cons]
        constructor
        · rw [ha]; simp [h]
        · rw [hb]; simp [h]
      · obtain ⟨ha, hb⟩ := ih scene
        simp only [deleteGo, if_neg h, List.filter_cons]
        constructor
        · show e :: (deleteGo x y rq rest scene).1 = _
          rw [ha]; simp [h]
        · show (deleteGo x y rq rest scene).2 = _
          rw [hb]; simp [h]

theorem not_outOfWindow_iff_inWindow (x y : ℚ) (r : ℤ) (c : ℤ × ℤ) :
    ¬ outOfWindow x y ((r : ℚ) + 1) c ↔ inWindow x y r c := by
  unfold outOfWindow inWindow
  push_neg
  constructor
  · rintro ⟨h1, h2, h3, h4⟩
    exact ⟨h1, by linarith, h3, by linarith⟩
  · rintro ⟨h1, h2, h3, h4⟩
    exact ⟨h1, by linarith, h3, by linarith⟩

theorem tick_octrees (rd : ℤ) (st : StreamState) :
    (chunkRenderLoopTick rd st).octrees = st.octrees := by
  unfold chunkRenderLoopTick; split <;> rfl

theorem tick_scene (rd : ℤ) (st : StreamState) :
    (chunkRenderLoopTick rd st).scene = st.scene := by
  unfold chunkRenderLoopTick; split <;> rfl

theorem tick_voxelFaceMap (rd : ℤ) (st : StreamState) :
    (chunkRenderLoopTick rd st).voxelFaceMap = st.voxelFaceMap := by
  unfold chunkRenderLoopTick; split <;> rfl

/-- A concrete chunk entry with one mesh handle. -/
def entryEx : ChunkEntry := ⟨⟨⟨0, 0, 0, 8, 8, 8⟩, []⟩, [7]⟩

/-- Concrete streamer state for the unload counterexample: chunk (0,0)
loaded, viewer at world position (24, 24), counter due. -/
def stOut : StreamState := ⟨0, [((0, 0), entryEx)], [7], 24, 24, CoordinateMap3D.empty⟩

/-- C5 counterexample: with chunk size 8 and radius 1 the viewer at world
position (24, 24) has viewer coordinate 3, outside the claim's window
[0, 0 + 1) of the loaded chunk (0, 0) — yet running the streamer tick leaves
that chunk's store entry (and the scene) exactly as they were, because the
tick never invokes the unload routine. -/
theorem tick_unload_counterexample :
    (¬ ((0 : ℚ) ≤ viewerChunkCoord 8 24 ∧ viewerChunkCoord 8 24 < 0 + 1)) ∧
      (chunkRenderLoopTick 1 stOut).octrees = stOut.octrees ∧
      (chunkRenderLoopTick 1 stOut).scene = stOut.scene ∧
      ((0, 0), entryEx) ∈ (chunkRenderLoopTick 1 stOut).octrees := by
  refine ⟨?_, tick_octrees 1 stOut, tick_scene 1 stOut, ?_⟩
  · norm_num [viewerChunkCoord, floorMultiple]
  · rw [tick_octrees]
    simp [stOut]

/-- C5 (amended): the tick itself unloads nothing; the unload logic lives in
deleteIfOutRadius, which, for configured radius r, keeps exactly the store
entries whose half-open window [cx, cx + r + 1) × [cy, cy + r + 1) — the
radius is incremented by the function before the test — contains the viewer
coordinate floorMultiple(position, chunkSize) / 8, deletes all other
entries, and erases each deleted entry's mesh handles from the scene. -/
theorem deleteIfOutRadius_window (chunkSize : ℚ) (r : ℤ) (st : StreamState) :
    (deleteIfOutRadius chunkSize r st).octrees
        = st.octrees.filter (fun e =>
            decide (inWindow (viewerChunkCoord chunkSize st.camX)
              (viewerChunkCoord chunkSize st.camZ) r e.1)) ∧
      (deleteIfOutRadius chunkSize r st).scene
        = (st.octrees.filter (fun e =>
            decide (outOfWindow (viewerChunkCoord chunkSize st.camX)
              (viewerChunkCoord chunkSize st.camZ) ((r : ℚ) + 1) e.1))).foldl
            (fun s e => sceneRemoveBlocks s e.2.blocks) st.scene ∧
      (chunkRenderLoopTick r st).octrees = st.octrees ∧
      (chunkRenderLoopTick r st).scene = st.scene := by
  obtain ⟨h1, h2⟩ := deleteGo_characterization (viewerChunkCoord chunkSize st.camX)
    (viewerChunkCoord chunkSize st.camZ) ((r : ℚ) + 1) st.octrees st.scene
  refine ⟨?_, ?_, tick_octrees r st, tick_scene r st⟩
  · show (deleteGo _ _ _ st.octrees st.scene).1 = _
    rw [h1]
    apply List.filter_congr
    intro e _
    exact decide_eq_decide.mpr (not_outOfWindow_iff_inWindow _ _ r e.1)
  · exact h2

/-- Concrete state for the load counterexample: empty store, viewer at the
origin, counter due. -/
def stEmpty : StreamState := ⟨0, [], [], 0, 0, CoordinateMap3D.empty⟩

/-- C6 counterexample: with chunk size 8 and radius 1 the viewer at the
origin has viewer coordinate 0, so the claim requires coordinate (0, 0) —
inside the 1 x 1 window — to be loaded after the tick; but the tick (and
addInRadius itself, whose generation call is commented out) leaves the store
empty. -/
theorem tick_load_counterexample :
    ((0 : ℚ) ≤ viewerChunkCoord 8 0 ∧ viewerChunkCoord 8 0 < 0 + 1) ∧
      (chunkRenderLoopTick 1 stEmpty).octrees = [] ∧
      (addInRadius 8 1 stEmpty).octrees = [] := by
  refine ⟨?_, ?_, ?_⟩
  · norm_num [viewerChunkCoord, floorMultiple]
  · rw [tick_octrees]; rfl
  · rfl

theorem foldl_const_state :
    ∀ (l : List (ℕ × ℕ)) (st : StreamState), l.foldl (fun s _ => s) st = st := by
  intro l
  induction l with
  | nil => intro st; rfl
  | cons a l ih => intro st; exact ih st

/-- C6 (amended): a streamer tick triggers no chunk generation, meshing or
scene insertion — the deleteIfOutRadius/addInRadius calls of the tick and the
store-set/loadChunk call inside addInRadius's window loop are commented out
in the source — so addInRadius returns its state unchanged and the store
after a tick equals the store before. -/
theorem addInRadius_no_load (chunkSize : ℚ) (r rd : ℤ) (st : StreamState) :
    addInRadius chunkSize r st = st ∧
      (chunkRenderLoopTick rd st).octrees = st.octrees ∧
      (chunkRenderLoopTick rd st).scene = st.scene :=
  ⟨foldl_const_state _ st, tick_octrees rd st, tick_scene rd st⟩

/-- C7: running the streamer tick a second time with viewer position and
radius unchanged performs no load or unload: the loaded-chunk store, the
scene and the voxel map after the second tick equal those after the first
(the tick only maintains its frame counter). -/
theorem tick_idempotent_store (rd : ℤ) (st : StreamState) :
    (chunkRenderLoopTick rd (chunkRenderLoopTick rd st)).octrees
        = (chunkRenderLoopTick rd st).octrees ∧
      (chunkRenderLoopTick rd (chunkRenderLoopTick rd st)).scene
        = (chunkRenderLoopTick rd st).scene ∧
      (chunkRenderLoopTick rd (chunkRenderLoopTick rd st)).voxelFaceMap
        = (chunkRenderLoopTick rd st).voxelFaceMap :=
  ⟨tick_octrees rd _, tick_scene rd _, tick_voxelFaceMap rd _⟩

/-- Concrete state for the stale-key counterexample: chunk (0,0) loaded and
its voxel key (0,0,0) stored with tile 1, viewer far away at (24,24). -/
def stStale : StreamState :=
  ⟨0, [((0, 0), entryEx)], [7], 24, 24, CoordinateMap3D.empty.set 0 0 0 1⟩

/-- C9 counterexample: unloading via deleteIfOutRadius with chunk size 8 and
radius 1 deletes the store entry of chunk (0,0) — the viewer coordinate 3 is
outside even the incremented window [0, 2) — yet the chunk's voxel key
(0,0,0) is still present in the SparseVoxelMap afterwards: the map still
answers tile 1 while the index entry is gone. -/
theorem unload_stale_key_counterexample :
    (deleteIfOutRadius 8 1 stStale).octrees = [] ∧
      (deleteIfOutRadius 8 1 stStale).voxelFaceMap.get 0 0 0 = some 1 := by
  constructor
  · obtain ⟨h1, _⟩ := deleteGo_characterization (viewerChunkCoord 8 stStale.camX)
      (viewerChunkCoord 8 stStale.camZ) (((1 : ℤ) : ℚ) + 1) stStale.octrees stStale.scene
    show (deleteGo (viewerChunkCoord 8 stStale.camX) (viewerChunkCoord 8 stStale.camZ)
      (((1 : ℤ) : ℚ) + 1) stStale.octrees stStale.scene).1 = []
    rw [h1]
    have hv : viewerChunkCoord 8 (24 : ℚ) = 3 := by
      norm_num [viewerChunkCoord, floorMultiple]
    have hout : outOfWindow (viewerChunkCoord 8 24) (viewerChunkCoord 8 24)
        (1 + 1 : ℚ) (0 : ℤ × ℤ) := by
      rw [hv]
      unfold outOfWindow
      norm_num
    simp only [stStale]
    rw [List.filter_cons]
    simp
    exact hout
  · rfl

/-- C9 (amended): the unload step deletes the chunk's SpatialIndex/mesh
entry from the store and removes its meshes from the scene, but it does not
remove the chunk's SparseVoxelMap keys: neither deleteIfOutRadius nor the
streamer tick ever changes the voxel map, so the keys of an unloaded chunk
remain observable in the map after its index entry is gone. -/
theorem unload_keeps_voxel_map (chunkSize : ℚ) (r rd : ℤ) (st : StreamState) :
    (deleteIfOutRadius chunkSize r st).voxelFaceMap = st.voxelFaceMap ∧
      (chunkRenderLoopTick rd st).voxelFaceMap = st.voxelFaceMap :=
  ⟨rfl, tick_voxelFaceMap rd st⟩

end Gamev2
